import Mathlib

/-!
# Verification of markdownlint-rule-mermaid (src/index.ts)

A shallow embedding of the mermaid-syntax markdownlint rule.  JavaScript
strings are modelled as Lean `String` (a wrapper around `List Char`); all
character-level operations used by the rule (trim, split on newline, regex
scans) are implemented over `List Char` so that every definition is
executable and kernel-reducible.  JavaScript regular-expression matching is
embedded as explicit leftmost-scan / backtracking functions that follow the
semantics of the concrete patterns appearing in the source.
-/

namespace MermaidRule

/-! ## Character-level string model (JS string primitives) -/

/-- JS whitespace characters relevant to `String.prototype.trim`
(ASCII subset; the source never feeds exotic Unicode whitespace). -/
def jsWs (c : Char) : Bool :=
  c = ' ' || c = '\t' || c = '\n' || c = '\r' || c = '\x0b' || c = '\x0c'

/-- Trim of a character list, both ends (model of `String.prototype.trim`). -/
def trimChars (cs : List Char) : List Char :=
  ((cs.dropWhile jsWs).reverse.dropWhile jsWs).reverse

/-- Model of JS `s.trim()`. -/
def jsTrim (s : String) : String := ⟨trimChars s.data⟩

/-- ASCII lower-casing of one character (model of `toLowerCase` on the
ASCII identifiers the rule compares). -/
def asciiLower (c : Char) : Char :=
  if 'A' ≤ c ∧ c ≤ 'Z' then Char.ofNat (c.toNat + 32) else c

/-- Model of JS `s.toLowerCase()` (ASCII). -/
def jsLower (s : String) : String := ⟨s.data.map asciiLower⟩

/-- Case-insensitive character comparison. -/
def ciEq (a b : Char) : Bool := asciiLower a = asciiLower b

/-- Model of JS `s.split('\n')`: split a character list at every newline.
Always returns at least one (possibly empty) line. -/
def splitNl : List Char → List (List Char)
  | [] => [[]]
  | c :: cs =>
    if c = '\n' then [] :: splitNl cs
    else
      match splitNl cs with
      | l :: ls => (c :: l) :: ls
      | [] => [[c]]

/-- Number of newline characters in a character list. -/
def countNl (cs : List Char) : Nat := (cs.filter (fun c => c = '\n')).length

/-- Character at index `i` (JS `s[i]` / `charAt`), `none` past the end. -/
def charAt (cs : List Char) (i : Nat) : Option Char := cs.get? i

/-- Does the literal `lit` occur at index `i` of `cs` (case-sensitive)? -/
def litAt : List Char → List Char → Nat → Bool
  | [], _, _ => true
  | c :: rest, cs, i =>
    match charAt cs i with
    | some d => c = d && litAt rest cs (i + 1)
    | none => false

/-- Does the literal `lit` occur at index `i` of `cs`, case-insensitively? -/
def litCIAt : List Char → List Char → Nat → Bool
  | [], _, _ => true
  | c :: rest, cs, i =>
    match charAt cs i with
    | some d => ciEq c d && litCIAt rest cs (i + 1)
    | none => false

/-- Length of the maximal run of characters satisfying `p` starting at `i`. -/
def runLen (cs : List Char) (i : Nat) (p : Char → Bool) : Nat :=
  ((cs.drop i).takeWhile p).length

/-- The apostrophe character (used by several patterns). -/
def apos : Char := Char.ofNat 39

/-- ASCII decimal digit. -/
def isDigitC (c : Char) : Bool := '0' ≤ c && c ≤ '9'

/-- Numeric value of a digit string (model of `Number.parseInt(·, 10)`). -/
def digitsVal (ds : List Char) : Nat :=
  ds.foldl (fun acc c => acc * 10 + (c.toNat - 48)) 0

/-- JS `\w` word character: `[A-Za-z0-9_]`. -/
def wordChar (c : Char) : Bool :=
  ('a' ≤ c && c ≤ 'z') || ('A' ≤ c && c ≤ 'Z') || isDigitC c || c = '_'

/-- ASCII letter (`[a-zA-Z]`). -/
def isAsciiAlpha (c : Char) : Bool :=
  ('a' ≤ c && c ≤ 'z') || ('A' ≤ c && c ≤ 'Z')

/-- Regex word boundary `\b` immediately before index `i`, for a word
character at `i`: holds when `i = 0` or the previous character is not a
word character. -/
def boundaryBefore (cs : List Char) (i : Nat) : Bool :=
  match i with
  | 0 => true
  | j + 1 =>
    match charAt cs j with
    | some d => !wordChar d
    | none => true

/-- Regex word boundary `\b` just after a word character ending at index
`i - 1`: holds when the character at `i` is absent or not a word character. -/
def boundaryAfter (cs : List Char) (i : Nat) : Bool :=
  match charAt cs i with
  | some d => !wordChar d
  | none => true

/-- First line of a character list (JS `s.split('\n')[0]`). -/
def firstLineChars (cs : List Char) : List Char := (splitNl cs).headD []

/-- Try `f` on `n, n-1, …, 0`, first `some` wins.  Models a greedy
(`longest-first`) regex quantifier with backtracking. -/
def tryDesc {α : Type} (f : Nat → Option α) : Nat → Option α
  | 0 => f 0
  | n + 1 =>
    match f (n + 1) with
    | some a => some a
    | none => tryDesc f n

/-- Try `f` on `1, 2, …, n`, first `some` wins.  Models a lazy
(`shortest-first`) regex quantifier with backtracking; starts at 1 because
it is used for `+`-quantifiers. -/
def tryAsc {α : Type} (f : Nat → Option α) (lo n : Nat) : Option α :=
  match n with
  | 0 => none
  | n + 1 =>
    match f lo with
    | some a => some a
    | none => tryAsc f (lo + 1) n

/-- Leftmost index `j ≥ i` (scanning at most `fuel` positions) at which
`f` produces a match; returns the index and the match data.  Models the
scan a JS regex engine performs to find the leftmost match. -/
def findFromAux {α : Type} (f : Nat → Option α) : Nat → Nat → Option (Nat × α)
  | 0, _ => none
  | fuel + 1, j =>
    match f j with
    | some a => some (j, a)
    | none => findFromAux f fuel (j + 1)

/-- Leftmost occurrence (index) of the case-sensitive literal `needle` in
`cs` at an index `≥ i`. -/
def findLitFrom (needle cs : List Char) (i : Nat) : Option Nat :=
  (findFromAux (fun j => if litAt needle cs j then some () else none)
    (cs.length + 1 - i) i).map Prod.fst

/-- Leftmost occurrence (index) of the case-insensitive literal `needle`
in `cs` at an index `≥ i`. -/
def findLitCIFrom (needle cs : List Char) (i : Nat) : Option Nat :=
  (findFromAux (fun j => if litCIAt needle cs j then some () else none)
    (cs.length + 1 - i) i).map Prod.fst

/-- Model of JS `s.includes(needle)`. -/
def includesSub (cs needle : List Char) : Bool :=
  (findLitFrom needle cs 0).isSome

/-! ## Data model (src/index.ts interfaces) -/

/-- Model of `interface Token` — markdown-it token as seen by the rule. -/
structure Token where
  type : String
  info : String
  content : String
  lineNumber : Nat
  deriving DecidableEq, Repr

/-- Model of `interface CodeBlock` — code block to validate. -/
structure CodeBlock where
  code : String
  startLine : Nat
  deriving DecidableEq, Repr

/-- Model of `interface ParsedError` — the intermediate Diagnostic Translator
output; `line = none` models JS `null`. -/
structure ParsedError where
  line : Option Nat
  message : String
  hint : Option String
  context : Option String
  deriving DecidableEq, Repr

/-- Model of `interface ValidationError` — final diagnostic reported to
markdownlint; `context = none` models an absent (`undefined`) field. -/
structure ValidationError where
  lineNumber : Nat
  detail : String
  context : Option String
  deriving DecidableEq, Repr

/-- One entry of the `TOKEN_HINTS` table. -/
structure TokenHint where
  message : String
  hint : String
  deriving DecidableEq, Repr

/-! ## TOKEN_HINTS table and lookup -/

/-- The table `TOKEN_HINTS` — static mapping from mermaid parser token names to
user-friendly messages and hints (all 26 entries of the source object). -/
def TOKEN_HINTS : List (String × TokenHint) :=
  [ ("SQS", ⟨"Unclosed square bracket",
      "Add closing ] to complete the node shape: A[text]"⟩),
    ("PS", ⟨"Unclosed parenthesis",
      "Add closing ) to complete the node shape: A(text) or A((text))"⟩),
    ("DIAMOND_START", ⟨"Unclosed curly brace or diamond",
      "Add closing \x7d to complete the shape: A\x7btext\x7d or A\x7b\x7btext\x7d\x7d"⟩),
    ("SUBROUTINESTART", ⟨"Unclosed subroutine shape",
      "Add closing ]] to complete the subroutine: A[[text]]"⟩),
    ("STADIUMSTART", ⟨"Unclosed stadium shape",
      "Add closing ]) to complete the stadium: A([text])"⟩),
    ("CYLINDERSTART", ⟨"Unclosed cylinder shape",
      "Add closing ]) to complete the cylinder: A[(text)]"⟩),
    ("DOUBLECIRCLESTART", ⟨"Unclosed double circle shape",
      "Add closing ))) to complete the double circle: A(((text)))"⟩),
    ("TRAPSTART", ⟨"Unclosed trapezoid shape",
      "Add closing /] to complete the trapezoid: A[/text/]"⟩),
    ("INVTRAPSTART", ⟨"Unclosed inverse trapezoid shape",
      "Add closing \\] to complete the inverse trapezoid: A[\\text\\]"⟩),
    ("TAGEND", ⟨"Unclosed asymmetric shape",
      "Add closing ] to complete the asymmetric shape: A>text]"⟩),
    ("1", ⟨"Unclosed block",
      "Add \x22end\x22 to close subgraph, loop, alt, opt, par, critical, rect, or state block"⟩),
    ("EOF_IN_STRUCT", ⟨"Unclosed namespace or struct block",
      "Add closing \x7d to complete the namespace or class definition"⟩),
    ("STRUCT_START", ⟨"Invalid struct declaration",
      "Check class syntax: class ClassName \x7b ... \x7d"⟩),
    ("NODE_STRING", ⟨"Unexpected text",
      "Check for missing arrows (-->, ---) or invalid syntax"⟩),
    ("NEWLINE", ⟨"Incomplete statement",
      "Add missing parts (e.g., colon for messages: Alice->>Bob: message)"⟩),
    ("EOF", ⟨"Unexpected end of diagram",
      "Statement is incomplete - add missing node, message, or closing element"⟩),
    ("LINK", ⟨"Missing link source",
      "Add source node before arrow: A --> B"⟩),
    ("ACTOR", ⟨"Invalid participant reference",
      "Check participant name in note/over statement"⟩),
    ("TXT", ⟨"Missing message text",
      "Add message after colon: Alice->>Bob: Hello"⟩),
    ("IDENTIFYING", ⟨"Invalid ER relationship",
      "Use valid relationship: ||--o\x7b, \x7do--||, etc."⟩),
    ("ONLY_ONE", ⟨"Invalid ER cardinality",
      "Check cardinality symbols: ||, |o, o|, \x7d|, |\x7b, etc."⟩),
    ("BLOCK_STOP", ⟨"Invalid ER attribute block",
      "Check attribute syntax: EntityName \x7b type attrName \x7d"⟩),
    ("INVALID", ⟨"Invalid state transition",
      "Use --> for transitions: StateA --> StateB"⟩),
    ("taskData", ⟨"Invalid task data",
      "Check task format: taskName :status, startDate, duration"⟩),
    ("GENERICTYPE", ⟨"Invalid generic type",
      "Check generic syntax: class ClassName~Type~"⟩),
    ("STYLE_SEPARATOR", ⟨"Invalid style syntax",
      "Check style definition syntax"⟩),
    ("COMMIT_ID", ⟨"Invalid commit reference",
      "Use valid commit command: commit id: \x22message\x22"⟩),
    ("COMMIT_TAG", ⟨"Invalid commit tag",
      "Use valid tag: commit tag: \x22v1.0\x22"⟩) ]

/-- Lookup `getTokenHint` — `TOKEN_HINTS[token] || null`. -/
def getTokenHint (token : String) : Option TokenHint :=
  TOKEN_HINTS.lookup token

/-! ## Regex matchers of parseErrorMessage

Each JS regular expression used by `parseErrorMessage` and its helpers is
embedded as an explicit leftmost-scan function over the character list. -/

/-- One-position matcher for `/Parse error on line (\d+):/i`: the literal,
then one or more digits (greedy), then `':'`. -/
def parseErrorLineAt (cs : List Char) (i : Nat) : Option Nat :=
  if litCIAt "parse error on line ".data cs i then
    let j := i + 20
    let ds := (cs.drop j).takeWhile isDigitC
    if ds.length ≠ 0 && charAt cs (j + ds.length) = some ':' then
      some (digitsVal ds)
    else none
  else none

/-- Leftmost match of `/Parse error on line (\d+):/i` (pattern 1),
returning the captured line number. -/
def matchParseErrorLine (s : String) : Option Nat :=
  (findFromAux (parseErrorLineAt s.data) (s.data.length + 1) 0).map Prod.snd

/-- One-position matcher for `/Lexical error on line (\d+)/i`. -/
def lexicalLineAt (cs : List Char) (i : Nat) : Option Nat :=
  if litCIAt "lexical error on line ".data cs i then
    let j := i + 22
    let ds := (cs.drop j).takeWhile isDigitC
    if ds.length ≠ 0 then some (digitsVal ds) else none
  else none

/-- Leftmost match of `/Lexical error on line (\d+)/i` (pattern 2). -/
def matchLexicalLine (s : String) : Option Nat :=
  (findFromAux (lexicalLineAt s.data) (s.data.length + 1) 0).map Prod.snd

/-- One-position matcher for
`/unexpected character: ->(.)<- at offset: (\d+)/` (case-sensitive);
`.` does not match a newline. -/
def unexpectedCharAt (cs : List Char) (i : Nat) : Option (Char × Nat) :=
  if litAt "unexpected character: ->".data cs i then
    match charAt cs (i + 24) with
    | some c =>
      if c ≠ '\n' && litAt "<- at offset: ".data cs (i + 25) then
        let j := i + 39
        let ds := (cs.drop j).takeWhile isDigitC
        if ds.length ≠ 0 then some (c, digitsVal ds) else none
      else none
    | none => none
  else none

/-- Leftmost match of the unexpected-character pattern (pattern 4),
returning the captured character and 0-based offset. -/
def matchUnexpectedChar (s : String) : Option (Char × Nat) :=
  (findFromAux (unexpectedCharAt s.data) (s.data.length + 1) 0).map Prod.snd

/-- Continuation of `/Expecting(?: token of type)? '?([^']+)'? but/i` after
the (optional) `token of type` part, starting at the position `p` of the
mandatory space.  The capture `[^']+` is greedy: longest length first, then
the optional closing quote (presence tried first) and the literal `' but'`. -/
def expectingTokenCont (cs : List Char) (p : Nat) : Option String :=
  if charAt cs p = some ' ' then
    let capStart := if charAt cs (p + 1) = some apos then p + 2 else p + 1
    let r := runLen cs capStart (fun c => c ≠ apos)
    tryDesc (fun len =>
      if len = 0 then none
      else
        let e := capStart + len
        if len ≤ r then
          if charAt cs e = some apos && litCIAt " but".data cs (e + 1) then
            some ⟨(cs.drop capStart).take len⟩
          else if litCIAt " but".data cs e then
            some ⟨(cs.drop capStart).take len⟩
          else none
        else none) r
  else none

/-- One-position matcher for
`/Expecting(?: token of type)? '?([^']+)'? but/i` (pattern 5): the optional
group is greedy, so the `token of type` branch is tried first. -/
def expectingTokenAt (cs : List Char) (i : Nat) : Option String :=
  if litCIAt "expecting".data cs i then
    match
      (if litCIAt " token of type".data cs (i + 9) then
        expectingTokenCont cs (i + 23)
      else none) with
    | some tok => some tok
    | none => expectingTokenCont cs (i + 9)
  else none

/-- Leftmost match of pattern 5, returning the captured token kind. -/
def matchExpectingToken (s : String) : Option String :=
  (findFromAux (expectingTokenAt s.data) (s.data.length + 1) 0).map Prod.snd

/-- One-position matcher for `/Expecting .+?, got '([^']+)'/`
(case-sensitive, used inside `handleParseError`).  The lazy `.+?` is tried
shortest-first and cannot cross a newline; the capture `[^']+` is the
maximal nonempty run up to the mandatory closing quote. -/
def expectingGotAt (cs : List Char) (i : Nat) : Option String :=
  if litAt "Expecting ".data cs i then
    let lineRun := runLen cs (i + 10) (fun c => c ≠ '\n')
    tryAsc (fun d =>
      if litAt ", got \x27".data cs (i + 10 + d) then
        let p := i + 10 + d + 7
        let caplen := runLen cs p (fun c => c ≠ apos)
        if caplen ≠ 0 && charAt cs (p + caplen) = some apos then
          some ⟨(cs.drop p).take caplen⟩
        else none
      else none) 1 lineRun
  else none

/-- Leftmost match of `/Expecting .+?, got '([^']+)'/`, returning the
captured token name. -/
def matchExpectingGot (s : String) : Option String :=
  (findFromAux (expectingGotAt s.data) (s.data.length + 1) 0).map Prod.snd

/-! ## Diagnostic Translator (parseErrorMessage and helpers) -/

/-- Model of the ellipsis replace — strip one leading three-dot ellipsis. -/
def stripLeadingDots (cs : List Char) : List Char :=
  if litAt "...".data cs 0 then cs.drop 3 else cs

/-- Embedding of `extractContext` — find the first error line containing `'^'` and
return the previous line with a leading ellipsis removed and trimmed;
`none` when the caret is on the first line or absent. -/
def extractContext : List (List Char) → Option String :=
  go none
where
  /-- Accumulator `prev` is the line before the current one (`none` at index 0). -/
  go : Option (List Char) → List (List Char) → Option String
  | _, [] => none
  | prev, l :: ls =>
    if l.contains '^' then
      match prev with
      | some p => some ⟨trimChars (stripLeadingDots p)⟩
      | none => none
    else go (some l) ls

/-- Model of the anchored header replace on the first line — strip the
(case-sensitive) parse-error header, digits and trailing whitespace
included, when the line starts with it. -/
def stripParseErrorHeader (cs : List Char) : List Char :=
  if litAt "Parse error on line ".data cs 0 then
    let ds := (cs.drop 20).takeWhile isDigitC
    if ds.length ≠ 0 && charAt cs (20 + ds.length) = some ':' then
      (cs.drop (20 + ds.length + 1)).dropWhile jsWs
    else cs
  else cs

/-- Embedding of `handleParseError` — pattern-1 handler: the line number was captured
by `matchParseErrorLine`; look for `Expecting …, got '…'` and consult the
token-hint table. -/
def handleParseError (errorMessage : String) (capturedLine : Nat) : ParsedError :=
  let lines := splitNl errorMessage.data
  match matchExpectingGot errorMessage with
  | some got =>
    match getTokenHint got with
    | some tokenInfo =>
      { line := some capturedLine, message := tokenInfo.message,
        hint := some tokenInfo.hint, context := extractContext lines }
    | none =>
      { line := some capturedLine,
        message := "Syntax error: unexpected \x22" ++ got ++ "\x22",
        hint := some "Check the syntax near this position",
        context := extractContext lines }
  | none =>
    { line := some capturedLine,
      message := ⟨stripParseErrorHeader (lines.headD [])⟩,
      hint := none, context := extractContext lines }

/-- Embedding of `handleNoDiagramType` — pattern-3 handler. -/
def handleNoDiagramType (code : String) : ParsedError :=
  let firstLine := trimChars (firstLineChars code.data)
  let displayLine := if firstLine.isEmpty then "(empty)".data else firstLine
  { line := some 1,
    message := "Unknown diagram type: \x22" ++ ⟨displayLine⟩ ++ "\x22",
    hint := some ("Valid types: flowchart, sequenceDiagram, classDiagram, " ++
      "stateDiagram, erDiagram, gantt, pie, mindmap, timeline, gitGraph"),
    context := if firstLine.isEmpty then none else some ⟨firstLine.take 40⟩ }

/-- The length-accumulating loop of `handleUnexpectedChar`: walk the
fragment lines, stopping at the first line whose span covers `offset`
(`pos + line.length >= offset`), adding 1 per consumed newline. -/
def walkLines : List (List Char) → Nat → Nat → Nat → Nat
  | [], _, line, _ => line
  | l :: ls, offset, line, pos =>
    if pos + l.length ≥ offset then line
    else walkLines ls offset (line + 1) (pos + l.length + 1)

/-- Embedding of `handleUnexpectedChar` — pattern-4 handler: convert the captured
0-based character offset to a 1-based fragment line. -/
def handleUnexpectedChar (c : Char) (offset : Nat) (code : String) : ParsedError :=
  { line := some (walkLines (splitNl code.data) offset 1 0),
    message := "Unexpected character \x22" ++ ⟨[c]⟩ ++ "\x22",
    hint := some "Check for typos, missing quotes, or invalid characters",
    context := none }

/-- Embedding of `parseErrorMessage` — the ordered cascade of six pattern matchers with
an unconditional fallback; the first matching pattern alone decides. -/
def parseErrorMessage (errorMessage code : String) : ParsedError :=
  match matchParseErrorLine errorMessage with
  | some n => handleParseError errorMessage n
  | none =>
    match matchLexicalLine errorMessage with
    | some n =>
      { line := some n, message := "Unrecognized text or keyword",
        hint := some "Check for typos, invalid keywords, or unsupported syntax",
        context := none }
    | none =>
      if includesSub errorMessage.data "No diagram type detected".data then
        handleNoDiagramType code
      else
        match matchUnexpectedChar errorMessage with
        | some (c, offset) => handleUnexpectedChar c offset code
        | none =>
          match matchExpectingToken errorMessage with
          | some tok =>
            { line := some 1, message := "Expected " ++ tok,
              hint := some "Check the diagram syntax and structure",
              context := none }
          | none =>
            if includesSub errorMessage.data "Expecting: one of these possible".data then
              { line := some 1, message := "Invalid syntax",
                hint := some "Check command syntax (e.g., branch name, checkout target)",
                context := none }
            else
              { line := none,
                message := ⟨(firstLineChars errorMessage.data).take 150⟩,
                hint := some "Check the diagram syntax for errors",
                context := none }

/-- Embedding of `formatErrorDetail` — message plus `". " + hint` when a hint exists. -/
def formatErrorDetail (parsed : ParsedError) : String :=
  match parsed.hint with
  | some h => parsed.message ++ ". " ++ h
  | none => parsed.message

/-- Embedding of `toValidationError` — absolute line anchoring and context fallback.
JS truthiness: `parsed.line ? … : …` treats `0` and `null` as falsy, and
`parsed.context || …` treats the empty string and `null` as falsy; the
fallback `code.split('\n')[0]?.substring(0, 40)` is present whenever the
split has a head (always). -/
def toValidationError (parsed : ParsedError) (startLine : Nat) (code : String) :
    ValidationError :=
  let fallbackCtx : Option String :=
    ((splitNl code.data).head?).map (fun l => ⟨l.take 40⟩)
  { lineNumber :=
      match parsed.line with
      | some l => if l = 0 then startLine else startLine + l - 1
      | none => startLine,
    detail := formatErrorDetail parsed,
    context :=
      match parsed.context with
      | some c => if c = "" then fallbackCtx else some c
      | none => fallbackCtx }

/-! ## Validation pipeline -/

/-- Embedding of `checkNotEmpty` — Precheck Guard: fail on fragments whose trimmed code
is empty, otherwise continue with the trimmed code. -/
def checkNotEmpty (block : CodeBlock) : Except ValidationError CodeBlock :=
  let trimmed := jsTrim block.code
  if trimmed = "" then
    .error
      { lineNumber := block.startLine,
        detail := "Empty Mermaid diagram. Add a diagram type (e.g., flowchart, sequenceDiagram) and content",
        context := none }
  else .ok { code := trimmed, startLine := block.startLine }

/-- The external mermaid parser, abstracted: `none` models a successful
`mermaid.parse`, `some msg` a rejection whose failure message is `msg`. -/
def MermaidParse : Type := String → Option String

/-- Embedding of `parseMermaidSyntax` — Parser Adapter for the mermaid backend: invoke
the external parser and translate a failure through `parseErrorMessage`
and `toValidationError`. -/
def parseMermaidSyntax (p : MermaidParse) (block : CodeBlock) :
    Except ValidationError CodeBlock :=
  match p block.code with
  | none => .ok block
  | some errorMessage =>
    .error (toValidationError (parseErrorMessage errorMessage block.code)
      block.startLine block.code)

/-- Embedding of `validateMermaidBlock` — full-mode pipeline for one block,
instrumented with the number of external parser invocations (second
component): the parser runs exactly when the empty check passes. -/
def validateMermaidBlockI (p : MermaidParse) (block : CodeBlock) :
    Except ValidationError CodeBlock × Nat :=
  match checkNotEmpty block with
  | .error e => (.error e, 0)
  | .ok b => (parseMermaidSyntax p b, 1)

/-- Match test of `/^([a-zA-Z][a-zA-Z0-9_-]*)/` on a (trimmed) line: the
anchored pattern matches iff the first character is an ASCII letter, the
tail quantifier being a Kleene star. -/
def startsIdentifier : List Char → Bool
  | c :: _ => isAsciiAlpha c
  | [] => false

/-- The `for`-loop of `validateBasicBlock`: skip blank and `%%` comment
lines; at the first remaining line, succeed exactly when the diagram-type
regex matches (the loop `break`s there regardless). -/
def findDiagramType : List (List Char) → Bool
  | [] => false
  | l :: ls =>
    let t := trimChars l
    if t.isEmpty || litAt "%%".data t 0 then findDiagramType ls
    else startsIdentifier t

/-- Embedding of `validateBasicBlock` — basic validation without the mermaid parser:
empty check, then the diagram-type check on the first non-blank,
non-comment line. -/
def validateBasicBlock (block : CodeBlock) : Except ValidationError CodeBlock :=
  match checkNotEmpty block with
  | .error e => .error e
  | .ok trimmedBlock =>
    let lines := splitNl trimmedBlock.code.data
    if findDiagramType lines then .ok trimmedBlock
    else
      .error
        { lineNumber := block.startLine,
          detail := "Missing diagram type declaration. Start with a diagram type like: flowchart, sequenceDiagram, classDiagram",
          context := some ⟨(trimChars (lines.headD [])).take 40⟩ }

/-- Embedding of `calculateKatexErrorLine` — the structured-exception backend line
computation: count newlines in the code before `position`. -/
def calculateKatexErrorLine (code : String) (position : Nat) (startLine : Nat) : Nat :=
  startLine + countNl (code.data.take position)

/-! ## HTML fragment extraction

The three members of `HTML_MERMAID_PATTERNS` share the shape
`/<TAG[^>]*\bclass\s*=\s*["'][^"']*\bKW\b[^"']*["'][^>]*>([\s\S]*?)<\/TAG>/gi`;
the shared matcher below embeds that shape with the backtracking
order (greedy quantifiers longest-first, the lazy capture ending at the
first closing tag). -/

/-- The quote character class. -/
def isQuoteC (c : Char) : Bool := c = '"' || c = apos

/-- JS `String.prototype.replace(/pat/g, rep)` for a literal pattern:
left-to-right, non-overlapping.  `fuel` bounds the recursion by the input
length. -/
def replaceAllL (pat rep : List Char) : Nat → List Char → List Char
  | 0, cs => cs
  | fuel + 1, cs =>
    match cs with
    | [] => []
    | c :: rest =>
      if pat ≠ [] && litAt pat cs 0 then
        rep ++ replaceAllL pat rep fuel (cs.drop pat.length)
      else c :: replaceAllL pat rep fuel rest

/-- Embedding of `decodeHtmlEntities` — the six chained global replacements, in source
order. -/
def decodeHtmlEntities (code : String) : String :=
  let step := fun (cs : List Char) (p : String × String) =>
    replaceAllL p.1.data p.2.data cs.length cs
  ⟨[("&lt;", "<"), ("&gt;", ">"), ("&amp;", "&"), ("&quot;", "\x22"),
    ("&#39;", "\x27"), ("&nbsp;", " ")].foldl step code.data⟩

/-- Tail of the pattern from just after the opening quote of the `class`
attribute value (position `v`): `[^"']*\bKW\b[^"']*["'][^>]*>` and then the
lazy capture `([\s\S]*?)` up to the first `</TAG>` (`tagClose`).  Returns
the match end and the capture.  The first `[^"']*` is greedy and
backtracks (longest placement of `KW` first). -/
def classValueAndClose (kw tagClose cs : List Char) (v : Nat) :
    Option (Nat × List Char) :=
  let m := runLen cs v (fun c => !isQuoteC c)
  tryDesc (fun t =>
    let w := v + t
    if boundaryBefore cs w && litCIAt kw cs w && boundaryAfter cs (w + kw.length) then
      let r := runLen cs (w + kw.length) (fun c => !isQuoteC c)
      match charAt cs (w + kw.length + r) with
      | some q2 =>
        if isQuoteC q2 then
          let u := w + kw.length + r + 1
          let s2 := runLen cs u (fun c => c ≠ '>')
          if charAt cs (u + s2) = some '>' then
            let aft := u + s2 + 1
            match findLitCIFrom tagClose cs aft with
            | some e => some (e + tagClose.length, (cs.drop aft).take (e - aft))
            | none => none
          else none
        else none
      | none => none
    else none) m

/-- One-position matcher for a whole HTML-carrier pattern at index `i`:
`<TAG`, then `[^>]*` (greedy, backtracking) up to `\bclass\s*=\s*["']`,
then the attribute value and closing tag via `classValueAndClose`.
Returns the match end and the captured inner text. -/
def tagMatchAt (tag kw cs : List Char) (i : Nat) : Option (Nat × List Char) :=
  if litCIAt ('<' :: tag) cs i then
    let p := i + 1 + tag.length
    let n := runLen cs p (fun c => c ≠ '>')
    tryDesc (fun k =>
      let q := p + k
      if boundaryBefore cs q && litCIAt "class".data cs q then
        let r1 := q + 5 + runLen cs (q + 5) jsWs
        if charAt cs r1 = some '=' then
          let r2 := r1 + 1 + runLen cs (r1 + 1) jsWs
          match charAt cs r2 with
          | some qc =>
            if isQuoteC qc then
              classValueAndClose kw ('<' :: '/' :: (tag ++ ['>'])) cs (r2 + 1)
            else none
          | none => none
        else none
      else none) n
  else none

/-- Model of `html.matchAll(pattern)`: repeatedly take the leftmost match from the
current scan position, then continue just past it (`lastIndex` semantics).
Produces `(start, end, capture)` triples. -/
def tagMatchesFrom (tag kw cs : List Char) : Nat → Nat → List (Nat × Nat × List Char)
  | 0, _ => []
  | fuel + 1, i =>
    match findFromAux (tagMatchAt tag kw cs) (cs.length + 1 - i) i with
    | none => []
    | some (j, e, cap) => (j, e, cap) :: tagMatchesFrom tag kw cs fuel (max e (j + 1))

/-- All matches of one HTML-carrier pattern, in document order. -/
def tagMatches (tag kw cs : List Char) : List (Nat × Nat × List Char) :=
  tagMatchesFrom tag kw cs (cs.length + 1) 0

/-- Fragments produced by one pattern of `extractMermaidFromHtml`: decoded
and trimmed capture, `startLine` shifted by the newline count before the
match start. -/
def extractFromHtmlPattern (tag kw html : List Char) (startLine : Nat) :
    List CodeBlock :=
  (tagMatches tag kw html).map fun m =>
    { code := jsTrim (decodeHtmlEntities ⟨m.2.2⟩),
      startLine := startLine + countNl (html.take m.1) }

/-- The list `HTML_MERMAID_PATTERNS` — the fixed ordered pattern list:
`pre`/`mermaid`, `div`/`mermaid`, `code`/`language-mermaid`. -/
def HTML_MERMAID_PATTERNS : List (List Char × List Char) :=
  [("pre".data, "mermaid".data),
   ("div".data, "mermaid".data),
   ("code".data, "language-mermaid".data)]

/-- Embedding of `extractMermaidFromHtml` — iterate the pattern list (outer loop) and,
per pattern, its matches (inner loop), pushing one block per match. -/
def extractMermaidFromHtml (html : String) (startLine : Nat) : List CodeBlock :=
  HTML_MERMAID_PATTERNS.flatMap fun pat =>
    extractFromHtmlPattern pat.1 pat.2 html.data startLine

/-- Embedding of `extractMermaidBlocks` — token loop: `fence` tokens whose trimmed,
lower-cased info string is `mermaid`, and `html_block` tokens scanned by
`extractMermaidFromHtml`. -/
def extractMermaidBlocks (tokens : List Token) : List CodeBlock :=
  tokens.flatMap fun token =>
    if token.type = "fence" then
      if jsLower (jsTrim token.info) = "mermaid" then
        [{ code := token.content, startLine := token.lineNumber }]
      else []
    else if token.type = "html_block" then
      extractMermaidFromHtml token.content token.lineNumber
    else []

/-! ## Rule orchestration (mermaidSyntaxRule.function) -/

/-- Model of `MermaidRuleConfig` — `basic` unset models an absent field. -/
structure MermaidRuleConfig where
  basic : Option Bool
  deriving DecidableEq, Repr

/-- Observable behaviour of one rule run: the `onError` invocations in
call order, and how many times the external parser was invoked. -/
structure RuleOutput where
  reports : List ValidationError
  parserCalls : Nat
  deriving DecidableEq, Repr

/-- The error component of a validation outcome. -/
def errOf : Except ValidationError CodeBlock → Option ValidationError
  | .error e => some e
  | .ok _ => none

/-- Embedding of `mermaidSyntaxRule.function`.  Basic mode reports each failing block
immediately, in block order.  Full mode validates all blocks and collects
via `ResultAsync.combineWithAllErrors` (built on `Promise.all`), which
yields the errors in *input* order — completion order never influences the
result — after the final join; the error loop then reports them one by
one.  Hence both modes report exactly the errors of the failing blocks in
extraction order. -/
def mermaidRuleRun (p : MermaidParse) (config : Option MermaidRuleConfig)
    (tokens : List Token) : RuleOutput :=
  let useBasic := ((config.getD ⟨none⟩).basic).getD false
  let blocks := extractMermaidBlocks tokens
  if useBasic then
    { reports := blocks.filterMap (fun b => errOf (validateBasicBlock b)),
      parserCalls := 0 }
  else
    { reports := blocks.filterMap (fun b => errOf (validateMermaidBlockI p b).1),
      parserCalls := (blocks.map (fun b => (validateMermaidBlockI p b).2)).sum }

/-! ## getMermaid lazy initialization (interleaving model)

`getMermaid` runs in an async runtime with run-to-completion semantics:
code between `await` points is atomic.  The function has exactly one
`await` that matters for the shared state (`await import('mermaid')`), so
one call is two atomic segments:

* segment 1 (from entry to the import `await`): read `mermaidInstance`; if
  set, finish immediately; otherwise, if `globalThis.window` is undefined,
  create the JSDOM and set `window` (counted as a DOM setup); then suspend
  on the dynamic import;
* segment 2 (after the import resolves): call `mermaid.initialize`
  (counted as an initialize call), store `mermaidInstance`, finish.

The shared module state and two concurrently running calls are modelled
explicitly; a schedule is a list of task choices, each running the chosen
next atomic segment of the chosen task. -/

/-- Program counter of one `getMermaid` call. -/
inductive MPc
  | start
  | awaitImport
  | done
  deriving DecidableEq, Repr

/-- Shared module/process state of `getMermaid`, with instrumentation
counters for the heavy setup steps. -/
structure MState where
  mermaidInstance : Bool
  windowDefined : Bool
  domSetups : Nat
  initializeCalls : Nat
  deriving DecidableEq, Repr

/-- Fresh process state: no cached instance, no DOM. -/
def MState.fresh : MState :=
  { mermaidInstance := false, windowDefined := false,
    domSetups := 0, initializeCalls := 0 }

/-- Run one atomic segment of a `getMermaid` call. -/
def getMermaidStep (s : MState) (pc : MPc) : MState × MPc :=
  match pc with
  | .start =>
    if s.mermaidInstance then (s, .done)
    else
      let s' :=
        if s.windowDefined then s
        else { s with windowDefined := true, domSetups := s.domSetups + 1 }
      (s', .awaitImport)
  | .awaitImport =>
    ({ s with initializeCalls := s.initializeCalls + 1, mermaidInstance := true },
     .done)
  | .done => (s, .done)

/-- Configuration: shared state plus the program counters of two
concurrent `getMermaid` calls. -/
structure TwoCalls where
  shared : MState
  pc0 : MPc
  pc1 : MPc
  deriving DecidableEq, Repr

/-- Both calls about to start against a fresh process. -/
def TwoCalls.init : TwoCalls := ⟨MState.fresh, .start, .start⟩

/-- Run a schedule: `false` advances call 0 by one atomic segment, `true`
advances call 1. -/
def runSchedule : List Bool → TwoCalls → TwoCalls
  | [], c => c
  | t :: ts, c =>
    if t then
      let (s', pc') := getMermaidStep c.shared c.pc1
      runSchedule ts ⟨s', c.pc0, pc'⟩
    else
      let (s', pc') := getMermaidStep c.shared c.pc0
      runSchedule ts ⟨s', pc', c.pc1⟩

/-! ## General lemmas -/

/-- The split `splitNl` never returns the empty list. -/
theorem splitNl_ne_nil (cs : List Char) : splitNl cs ≠ [] := by
  induction cs with
  | nil => simp [splitNl]
  | cons c cs ih =>
    simp only [splitNl]
    split
    · simp
    · cases h : splitNl cs with
      | nil => exact absurd h ih
      | cons l ls => simp

/-- The first line produced by `splitNl` is the run of characters before
the first newline. -/
theorem firstLineChars_eq_takeWhile (cs : List Char) :
    firstLineChars cs = cs.takeWhile (fun c => c ≠ '\n') := by
  induction cs with
  | nil => simp [firstLineChars, splitNl]
  | cons c cs ih =>
    by_cases hc : c = '\n'
    · subst hc
      simp [firstLineChars, splitNl, List.takeWhile]
    · simp only [firstLineChars, splitNl, if_neg hc] at ih ⊢
      cases h : splitNl cs with
      | nil => exact absurd h (splitNl_ne_nil cs)
      | cons l ls =>
        simp only [h, List.headD_cons] at ih ⊢
        simp [List.takeWhile, hc, ih]

/-- A `filterMap` where every element produces a value is a `map`. -/
theorem filterMap_eq_map_of_isSome {α β : Type} (f : α → Option β) (g : α → β)
    (l : List α) (h : ∀ x ∈ l, f x = some (g x)) : l.filterMap f = l.map g := by
  induction l with
  | nil => rfl
  | cons x xs ih =>
    have hx := h x (by simp)
    simp only [List.filterMap_cons, hx, List.map_cons]
    exact congrArg _ (ih fun y hy => h y (by simp [hy]))

/-- Association-list lookup returns exactly the stored entry when the
keys are distinct. -/
theorem lookup_eq_of_mem {l : List (String × TokenHint)}
    (hnd : (l.map Prod.fst).Nodup) {a : String} {b : TokenHint}
    (h : (a, b) ∈ l) : l.lookup a = some b := by
  induction l with
  | nil => simp at h
  | cons x xs ih =>
    simp only [List.map_cons, List.nodup_cons] at hnd
    rcases List.mem_cons.mp h with heq | hmem
    · subst heq
      simp [List.lookup]
    · have hne : a ≠ x.1 := by
        intro hax
        exact hnd.1 (hax ▸ List.mem_map.mpr ⟨(a, b), hmem, rfl⟩)
      have hbeq : (a == x.1) = false := beq_eq_false_iff_ne.mpr hne
      simp only [List.lookup, hbeq]
      exact ih hnd.2 hmem

/-! ## Claim C1: absolute-line anchoring -/

/-- C1: for a fragment with `startLine = S`, when the Diagnostic
Translator resolves a fragment-relative line `L ≥ 1` the reported
`ValidationError.lineNumber` is `S + L - 1`; when the translator yields no
line the reported `lineNumber` is `S` itself. -/
theorem line_offset_law (parsed : ParsedError) (S : Nat) (code : String) :
    (∀ L, parsed.line = some L → 1 ≤ L →
      (toValidationError parsed S code).lineNumber = S + L - 1) ∧
    (parsed.line = none → (toValidationError parsed S code).lineNumber = S) := by
  constructor
  · intro L hL h1
    simp only [toValidationError, hL]
    rw [if_neg (by omega)]
  · intro hn
    simp [toValidationError, hn]

/-- Witness for C1 at `S = 5`, `L = 3` and at `S = 5` with no line. -/
theorem line_offset_law_witness :
    (toValidationError ⟨some 3, "m", none, none⟩ 5 "c").lineNumber = 7 ∧
    (toValidationError ⟨none, "m", none, none⟩ 5 "c").lineNumber = 5 := by
  constructor
  · have h := (line_offset_law ⟨some 3, "m", none, none⟩ 5 "c").1 3 rfl (by decide)
    simpa using h
  · exact (line_offset_law ⟨none, "m", none, none⟩ 5 "c").2 rfl

/-! ## Claim C2: empty-content law -/

/-- C2: a block whose trimmed code is empty yields, in basic mode and in
full mode alike, exactly the one empty-content error at that block field
`startLine`, and the external parser is never invoked for it (invocation
count 0), whatever the parser would answer. -/
theorem empty_content_law (p : MermaidParse) (b : CodeBlock)
    (h : jsTrim b.code = "") :
    validateBasicBlock b =
      .error ⟨b.startLine,
        "Empty Mermaid diagram. Add a diagram type (e.g., flowchart, sequenceDiagram) and content",
        none⟩ ∧
    validateMermaidBlockI p b =
      (.error ⟨b.startLine,
        "Empty Mermaid diagram. Add a diagram type (e.g., flowchart, sequenceDiagram) and content",
        none⟩, 0) := by
  constructor
  · simp [validateBasicBlock, checkNotEmpty, h]
  · simp [validateMermaidBlockI, checkNotEmpty, h]

/-- Witness for C2: a whitespace-only block at line 9, under a parser that
would accept anything. -/
theorem empty_content_law_witness :
    validateBasicBlock ⟨"  \n ", 9⟩ =
      .error ⟨9,
        "Empty Mermaid diagram. Add a diagram type (e.g., flowchart, sequenceDiagram) and content",
        none⟩ ∧
    validateMermaidBlockI (fun _ => none) ⟨"  \n ", 9⟩ =
      (.error ⟨9,
        "Empty Mermaid diagram. Add a diagram type (e.g., flowchart, sequenceDiagram) and content",
        none⟩, 0) :=
  empty_content_law (fun _ => none) ⟨"  \n ", 9⟩ (by decide)

/-! ## Claim C5: lazy initialization races -/

/-- C5 (refuting evidence): two concurrent first-time `getMermaid` calls,
where the second starts before the dynamic import of the first resolves
(schedule: call 0 prologue, call 1 prologue, call 0 resume, call 1
resume), both run `mermaid.initialize` — the shared state memoizes only
the finished instance, not the in-flight initialization, so the heavy
initialization executes twice; only the DOM shim (guarded separately by
`window`) runs once. -/
theorem getMermaid_double_initialize :
    (runSchedule [false, true, false, true] TwoCalls.init).shared.initializeCalls = 2 ∧
    (runSchedule [false, true, false, true] TwoCalls.init).shared.domSetups = 1 ∧
    (runSchedule [false, true, false, true] TwoCalls.init).pc0 = MPc.done ∧
    (runSchedule [false, true, false, true] TwoCalls.init).pc1 = MPc.done := by
  decide

/-! ## Claim C10: context fallback -/

/-- C10 (counterexample): a parser failure whose caret context line
degenerates to the empty string.  The translator context is non-null
(`some ""`), yet the reported context is the first code line — the
JS `||` fallback also fires on the empty string, refuting "equals the
translator context whenever that is non-null". -/
theorem context_empty_string_counterexample :
    (parseErrorMessage "Parse error on line 1:\n...\n^" "flowchart").context =
      some "" ∧
    (toValidationError
      (parseErrorMessage "Parse error on line 1:\n...\n^" "flowchart")
      5 "flowchart").context = some "flowchart" := by
  decide

/-- C10 (amended): every `ValidationError` built by `toValidationError`
from a block whose code is trimmed and nonempty (as full-mode parser
failures are) carries a present context: the translator context when
that is non-null *and nonempty*, and otherwise the first line of the
trimmed code of the block truncated to 40 characters, itself nonempty. -/
theorem context_always_present (parsed : ParsedError) (S : Nat) (code : String)
    (h1 : jsTrim code = code) (h2 : code ≠ "") :
    ((toValidationError parsed S code).context).isSome = true ∧
    (∀ c, parsed.context = some c → c ≠ "" →
      (toValidationError parsed S code).context = some c) ∧
    ((parsed.context = none ∨ parsed.context = some "") →
      (toValidationError parsed S code).context =
        some ⟨(firstLineChars code.data).take 40⟩ ∧
      (⟨(firstLineChars code.data).take 40⟩ : String) ≠ "") := by
  have hdata : code.data ≠ [] := by
    intro hnil
    apply h2
    cases code with
    | mk l =>
      cases l with
      | nil => rfl
      | cons a as => simp at hnil
  obtain ⟨c0, cs0, hcons⟩ := List.exists_cons_of_ne_nil hdata
  have htrim : trimChars code.data = code.data := by
    have := congrArg String.data h1
    simpa [jsTrim] using this
  have hc0 : jsWs c0 = false := by
    by_contra hws
    rw [Bool.not_eq_false] at hws
    have hlt : (trimChars code.data).length < code.data.length := by
      have hle1 : (trimChars code.data).length ≤ (code.data.dropWhile jsWs).length := by
        simp only [trimChars, List.length_reverse]
        calc ((code.data.dropWhile jsWs).reverse.dropWhile jsWs).length
            ≤ (code.data.dropWhile jsWs).reverse.length :=
              (List.dropWhile_sublist _).length_le
          _ = (code.data.dropWhile jsWs).length := List.length_reverse _
      have hle2 : (code.data.dropWhile jsWs).length < code.data.length := by
        rw [hcons, List.dropWhile_cons_of_pos hws]
        have := (List.dropWhile_sublist (l := cs0) jsWs).length_le
        simp only [List.length_cons]
        omega
      omega
    rw [htrim] at hlt
    omega
  have hc0n : c0 ≠ '\n' := by
    intro hn
    rw [hn] at hc0
    simp [jsWs] at hc0
  have hfl : firstLineChars code.data =
      c0 :: (cs0.takeWhile (fun c => c ≠ '\n')) := by
    rw [firstLineChars_eq_takeWhile, hcons,
      List.takeWhile_cons_of_pos (by simp [hc0n])]
  have hne : (⟨(firstLineChars code.data).take 40⟩ : String) ≠ "" := by
    rw [hfl]
    intro h
    have := congrArg String.data h
    simp [List.take_succ_cons] at this
  have hfb : ((splitNl code.data).head?).map
      (fun l => (⟨l.take 40⟩ : String)) =
      some ⟨(firstLineChars code.data).take 40⟩ := by
    cases hsp : splitNl code.data with
    | nil => exact absurd hsp (splitNl_ne_nil _)
    | cons L Ls => simp [firstLineChars, hsp]
  refine ⟨?_, ?_, ?_⟩
  · cases hctx : parsed.context with
    | none => simp [toValidationError, hctx, hfb]
    | some c =>
      by_cases hc : c = ""
      · simp [toValidationError, hctx, hc, hfb]
      · simp [toValidationError, hctx, hc]
  · intro c hctx hc
    simp [toValidationError, hctx, hc]
  · intro hctx
    rcases hctx with hctx | hctx
    · exact ⟨by simp [toValidationError, hctx, hfb], hne⟩
    · exact ⟨by simp [toValidationError, hctx, hfb], hne⟩

/-- Witness for the amended C10: a translator result carrying the empty
context, over the trimmed nonempty code `"flowchart"`. -/
theorem context_always_present_witness :
    (toValidationError ⟨some 1, "m", none, some ""⟩ 2 "flowchart").context =
      some "flowchart" :=
  ((context_always_present ⟨some 1, "m", none, some ""⟩ 2 "flowchart"
    (by decide) (by decide)).2.2 (Or.inr rfl)).1

/-! ## Claim C3: full-mode error count and order -/

/-- C3: with every extracted fragment failing full-mode validation, the
rule invokes `onError` exactly once per fragment, and the invocations are
the per-fragment errors in the order the fragments were extracted from the
document (the concurrent validations are joined and collected in input
order, never completion order). -/
theorem full_mode_order_preservation (p : MermaidParse) (tokens : List Token)
    (h : ∀ b ∈ extractMermaidBlocks tokens,
      (errOf (validateMermaidBlockI p b).1).isSome = true) :
    (mermaidRuleRun p none tokens).reports.length =
      (extractMermaidBlocks tokens).length ∧
    (mermaidRuleRun p none tokens).reports =
      (extractMermaidBlocks tokens).map
        (fun b => (errOf (validateMermaidBlockI p b).1).getD ⟨0, "", none⟩) := by
  have hr : (mermaidRuleRun p none tokens).reports =
      (extractMermaidBlocks tokens).filterMap
        (fun b => errOf (validateMermaidBlockI p b).1) := rfl
  have hmap : (extractMermaidBlocks tokens).filterMap
      (fun b => errOf (validateMermaidBlockI p b).1) =
      (extractMermaidBlocks tokens).map
        (fun b => (errOf (validateMermaidBlockI p b).1).getD ⟨0, "", none⟩) := by
    apply filterMap_eq_map_of_isSome
    intro b hb
    have hs := h b hb
    cases ho : errOf (validateMermaidBlockI p b).1 with
    | none => rw [ho] at hs; simp at hs
    | some e => simp [ho]
  refine ⟨?_, ?_⟩
  · rw [hr, hmap, List.length_map]
  · rw [hr, hmap]

/-- Witness for C3: two invalid fenced fragments (lines 3 and 9) under a
parser rejecting everything with message `boom`; the two reports appear in
document order. -/
theorem full_mode_order_preservation_witness :
    (mermaidRuleRun (fun _ => some "boom") none
      [⟨"fence", "mermaid", "a", 3⟩, ⟨"fence", "mermaid", "b", 9⟩]).reports =
      [⟨3, "boom. Check the diagram syntax for errors", some "a"⟩,
       ⟨9, "boom. Check the diagram syntax for errors", some "b"⟩] := by
  have h := full_mode_order_preservation (fun _ => some "boom")
    [⟨"fence", "mermaid", "a", 3⟩, ⟨"fence", "mermaid", "b", 9⟩] (by decide)
  rw [h.2]
  decide

/-! ## Claim C6: basic mode -/

/-- Spec side of C6: the first trimmed line that is neither blank nor a
`%%` comment. -/
def firstContentLine (lines : List (List Char)) : Option (List Char) :=
  (lines.map trimChars).find?
    (fun t => !(t.isEmpty || litAt "%%".data t 0))

/-- Spec side of C6: the missing-diagram-type condition — the first
non-blank, non-comment line fails the identifier-shape test, or no such
line exists. -/
def missingDiagramType (code : String) : Bool :=
  match firstContentLine (splitNl code.data) with
  | none => true
  | some t => !startsIdentifier t

/-- The `for`/`break` loop of `validateBasicBlock` computes exactly the
identifier test on the first non-blank, non-comment line. -/
theorem findDiagramType_eq_spec (lines : List (List Char)) :
    findDiagramType lines =
      match firstContentLine lines with
      | none => false
      | some t => startsIdentifier t := by
  induction lines with
  | nil => rfl
  | cons l ls ih =>
    simp only [firstContentLine, List.map_cons] at ih ⊢
    by_cases hskip : ((trimChars l).isEmpty || litAt "%%".data (trimChars l) 0) = true
    · rw [List.find?_cons_of_neg _ (by simp [hskip])]
      simpa [findDiagramType, hskip] using ih
    · rw [Bool.not_eq_true] at hskip
      rw [List.find?_cons_of_pos _ (by simp [hskip])]
      simp [findDiagramType, hskip]

/-- C6: in basic mode the external parser is never invoked (invocation
count 0, and the whole run is independent of the parser); each block has its
result is reported independently of the others (the reports are the
per-block failures in block order); and a nonempty-after-trim block fails
with the missing-diagram-type error at its own `startLine` exactly when
the first non-blank, non-`%%` line does not start with an
identifier-shaped token, or no such line exists. -/
theorem basic_mode_law (p q : MermaidParse) (tokens : List Token)
    (b : CodeBlock) (h : jsTrim b.code ≠ "") :
    (mermaidRuleRun p (some ⟨some true⟩) tokens).parserCalls = 0 ∧
    mermaidRuleRun p (some ⟨some true⟩) tokens =
      mermaidRuleRun q (some ⟨some true⟩) tokens ∧
    (mermaidRuleRun p (some ⟨some true⟩) tokens).reports =
      (extractMermaidBlocks tokens).filterMap
        (fun blk => errOf (validateBasicBlock blk)) ∧
    ((∃ e, validateBasicBlock b = .error e) ↔
      missingDiagramType (jsTrim b.code) = true) ∧
    (∀ e, validateBasicBlock b = .error e →
      e.lineNumber = b.startLine ∧
      e.detail = "Missing diagram type declaration. Start with a diagram type like: flowchart, sequenceDiagram, classDiagram") := by
  have hok : checkNotEmpty b = .ok ⟨jsTrim b.code, b.startLine⟩ := by
    simp [checkNotEmpty, h]
  refine ⟨rfl, rfl, rfl, ?_, ?_⟩
  · rw [missingDiagramType]
    simp only [validateBasicBlock, hok, findDiagramType_eq_spec]
    cases hfc : firstContentLine (splitNl (jsTrim b.code).data) with
    | none => simp
    | some t =>
      cases hst : startsIdentifier t with
      | true => simp [hst]
      | false => simp [hst]
  · intro e he
    simp only [validateBasicBlock, hok] at he
    by_cases hft : findDiagramType (splitNl (jsTrim b.code).data) = true
    · rw [if_pos hft] at he
      cases he
    · rw [if_neg hft] at he
      cases he
      exact ⟨rfl, rfl⟩

/-- Witness for C6: a basic-mode document whose single fragment starts
with a digit after a comment line, under two different parsers. -/
theorem basic_mode_law_witness :
    (mermaidRuleRun (fun _ => some "x") (some ⟨some true⟩)
      [⟨"fence", "mermaid", "%% c\n1a", 4⟩]).parserCalls = 0 ∧
    ((∃ e, validateBasicBlock ⟨"%% c\n1a", 4⟩ = .error e) ↔
      missingDiagramType (jsTrim "%% c\n1a") = true) := by
  have h := basic_mode_law (fun _ => some "x") (fun _ => none)
    [⟨"fence", "mermaid", "%% c\n1a", 4⟩] ⟨"%% c\n1a", 4⟩ (by decide)
  exact ⟨h.1, h.2.2.2.1⟩

/-! ## Claim C7: translator cascade order and fallback -/

/-- C7: `parseErrorMessage` evaluates its six patterns in a fixed order
and the first match alone decides the diagnostic; when none of the six
matches, the result has no line and its message is the first line of
the raw message truncated to 150 characters, with the generic hint and no
context. -/
theorem translator_cascade (msg code : String) :
    (∀ n, matchParseErrorLine msg = some n →
      parseErrorMessage msg code = handleParseError msg n) ∧
    (matchParseErrorLine msg = none →
      ∀ n, matchLexicalLine msg = some n →
      parseErrorMessage msg code =
        ⟨some n, "Unrecognized text or keyword",
         some "Check for typos, invalid keywords, or unsupported syntax", none⟩) ∧
    (matchParseErrorLine msg = none → matchLexicalLine msg = none →
      includesSub msg.data "No diagram type detected".data = true →
      parseErrorMessage msg code = handleNoDiagramType code) ∧
    (matchParseErrorLine msg = none → matchLexicalLine msg = none →
      includesSub msg.data "No diagram type detected".data = false →
      ∀ c off, matchUnexpectedChar msg = some (c, off) →
      parseErrorMessage msg code = handleUnexpectedChar c off code) ∧
    (matchParseErrorLine msg = none → matchLexicalLine msg = none →
      includesSub msg.data "No diagram type detected".data = false →
      matchUnexpectedChar msg = none →
      ∀ tok, matchExpectingToken msg = some tok →
      parseErrorMessage msg code =
        ⟨some 1, "Expected " ++ tok,
         some "Check the diagram syntax and structure", none⟩) ∧
    (matchParseErrorLine msg = none → matchLexicalLine msg = none →
      includesSub msg.data "No diagram type detected".data = false →
      matchUnexpectedChar msg = none → matchExpectingToken msg = none →
      includesSub msg.data "Expecting: one of these possible".data = true →
      parseErrorMessage msg code =
        ⟨some 1, "Invalid syntax",
         some "Check command syntax (e.g., branch name, checkout target)", none⟩) ∧
    (matchParseErrorLine msg = none → matchLexicalLine msg = none →
      includesSub msg.data "No diagram type detected".data = false →
      matchUnexpectedChar msg = none → matchExpectingToken msg = none →
      includesSub msg.data "Expecting: one of these possible".data = false →
      parseErrorMessage msg code =
        ⟨none, ⟨(firstLineChars msg.data).take 150⟩,
         some "Check the diagram syntax for errors", none⟩) := by
  refine ⟨?_, ?_, ?_, ?_, ?_, ?_, ?_⟩
  · intro n h1
    simp [parseErrorMessage, h1]
  · intro h1 n h2
    simp [parseErrorMessage, h1, h2]
  · intro h1 h2 h3
    simp [parseErrorMessage, h1, h2, h3]
  · intro h1 h2 h3 c off h4
    simp [parseErrorMessage, h1, h2, h3, h4]
  · intro h1 h2 h3 h4 tok h5
    simp [parseErrorMessage, h1, h2, h3, h4, h5]
  · intro h1 h2 h3 h4 h5 h6
    simp [parseErrorMessage, h1, h2, h3, h4, h5, h6]
  · intro h1 h2 h3 h4 h5 h6
    simp [parseErrorMessage, h1, h2, h3, h4, h5, h6]

/-- Witness for C7 at a message matching none of the six patterns. -/
theorem translator_cascade_witness :
    parseErrorMessage "strange failure\nsecond line" "x" =
      ⟨none, "strange failure",
       some "Check the diagram syntax for errors", none⟩ := by
  have h := (translator_cascade "strange failure\nsecond line" "x").2.2.2.2.2.2
    (by decide) (by decide) (by decide) (by decide) (by decide) (by decide)
  rw [h]
  decide

/-! ## Claim C8: token-hint table lookup -/

/-- C8: for a parse-error message carrying both a positional header and an
`Expecting …, got 'TOKEN'` clause, a token present in `TOKEN_HINTS` yields
exactly the configured message and hint of that entry, and an absent token yields the
generic `Syntax error: unexpected "TOKEN"` message (embedding the token)
with the generic hint. -/
theorem token_hint_lookup (msg code : String) (n : Nat) (tok : String)
    (h1 : matchParseErrorLine msg = some n)
    (h2 : matchExpectingGot msg = some tok) :
    (∀ e, (tok, e) ∈ TOKEN_HINTS →
      (parseErrorMessage msg code).message = e.message ∧
      (parseErrorMessage msg code).hint = some e.hint) ∧
    (getTokenHint tok = none →
      (parseErrorMessage msg code).message =
        "Syntax error: unexpected \x22" ++ tok ++ "\x22" ∧
      (parseErrorMessage msg code).hint =
        some "Check the syntax near this position") := by
  have hmain : parseErrorMessage msg code = handleParseError msg n := by
    simp [parseErrorMessage, h1]
  constructor
  · intro e hmem
    have hlk : getTokenHint tok = some e :=
      lookup_eq_of_mem (by decide) hmem
    rw [hmain]
    simp [handleParseError, h2, hlk]
  · intro hlk
    rw [hmain]
    simp [handleParseError, h2, hlk]

/-- Witness for C8 on the table token `SQS`. -/
theorem token_hint_lookup_witness :
    (parseErrorMessage "Parse error on line 2: Expecting X, got \x27SQS\x27" "g").message =
      "Unclosed square bracket" ∧
    (parseErrorMessage "Parse error on line 2: Expecting X, got \x27SQS\x27" "g").hint =
      some "Add closing ] to complete the node shape: A[text]" :=
  (token_hint_lookup "Parse error on line 2: Expecting X, got \x27SQS\x27" "g" 2 "SQS"
    (by decide) (by decide)).1 ⟨"Unclosed square bracket",
      "Add closing ] to complete the node shape: A[text]"⟩ (by decide)

/-! ## Claim C9: the two offset-to-line methods agree -/

/-- Accumulator-free form of the `handleUnexpectedChar` line walk. -/
def walkRel : List (List Char) → Nat → Nat
  | [], _ => 1
  | l :: ls, off =>
    if off ≤ l.length then 1 else 1 + walkRel ls (off - (l.length + 1))

/-- The accumulating walk equals the accumulator-free walk shifted by the
starting line and position. -/
theorem walkLines_eq_walkRel (ls : List (List Char)) :
    ∀ line pos off, pos ≤ off →
      walkLines ls off line pos = line + walkRel ls (off - pos) - 1 := by
  induction ls with
  | nil =>
    intro line pos off h
    simp [walkLines, walkRel]
  | cons l ls ih =>
    intro line pos off h
    simp only [walkLines, walkRel]
    by_cases hc : pos + l.length ≥ off
    · rw [if_pos hc, if_pos (by omega)]
      omega
    · push_neg at hc
      rw [if_neg (by omega), if_neg (by omega)]
      rw [ih (line + 1) (pos + l.length + 1) off (by omega)]
      have harg : off - (pos + l.length + 1) = off - pos - (l.length + 1) := by
        omega
      rw [harg]
      omega

/-- The accumulator-free walk over the split lines counts the newlines
before the offset (for offsets inside the code). -/
theorem walkRel_splitNl (cs : List Char) :
    ∀ off, off ≤ cs.length → walkRel (splitNl cs) off = 1 + countNl (cs.take off) := by
  induction cs with
  | nil =>
    intro off h
    have h0 : off = 0 := by simpa using h
    subst h0
    simp [splitNl, walkRel, countNl]
  | cons c cs ih =>
    intro off h
    by_cases hc : c = '\n'
    · subst hc
      simp only [splitNl, if_pos rfl]
      cases off with
      | zero => simp [walkRel, countNl]
      | succ o =>
        simp only [walkRel, List.length_nil]
        rw [if_neg (by omega)]
        rw [show o + 1 - (0 + 1) = o by omega]
        rw [ih o (by simpa using h)]
        simp only [countNl, List.take_succ_cons, List.filter_cons]
        simp
        omega
    · obtain ⟨L, Ls, hsp⟩ : ∃ L Ls, splitNl cs = L :: Ls := by
        cases hs : splitNl cs with
        | nil => exact absurd hs (splitNl_ne_nil cs)
        | cons L Ls => exact ⟨L, Ls, rfl⟩
      simp only [splitNl, if_neg hc, hsp]
      cases off with
      | zero => simp [walkRel, countNl]
      | succ o =>
        have hIH := ih o (by simpa using h)
        rw [hsp] at hIH
        have hstep : walkRel ((c :: L) :: Ls) (o + 1) = walkRel (L :: Ls) o := by
          simp only [walkRel, List.length_cons]
          by_cases ho : o ≤ L.length
          · rw [if_pos (by omega), if_pos ho]
          · rw [show o + 1 - (L.length + 1 + 1) = o - (L.length + 1) from by omega]
            rw [if_neg (by omega), if_neg ho]
        rw [hstep, hIH]
        simp [countNl, List.take_succ_cons, hc]

/-- C9: for any offset within the code, the 1-based line computed by
the length-accumulating walk of `handleUnexpectedChar` is 1 plus the number of
newlines strictly before the offset — i.e. it coincides with the
newline-counting method of `calculateKatexErrorLine`. -/
theorem offset_to_line_agreement (code : String) (ch : Char) (offset : Nat)
    (h : offset ≤ code.data.length) :
    (handleUnexpectedChar ch offset code).line =
      some (1 + countNl (code.data.take offset)) ∧
    (∀ S, calculateKatexErrorLine code offset S =
      S + countNl (code.data.take offset)) ∧
    (handleUnexpectedChar ch offset code).line =
      some (calculateKatexErrorLine code offset 1) := by
  have hwalk : walkLines (splitNl code.data) offset 1 0 =
      1 + countNl (code.data.take offset) := by
    rw [walkLines_eq_walkRel (splitNl code.data) 1 0 offset (Nat.zero_le _)]
    simp only [Nat.sub_zero]
    rw [walkRel_splitNl code.data offset h]
    omega
  exact ⟨by simp [handleUnexpectedChar, hwalk], fun S => rfl,
    by simp [handleUnexpectedChar, hwalk, calculateKatexErrorLine]⟩

/-- Witness for C9 on `"ab\ncd"` at offset 3 (start of the second line). -/
theorem offset_to_line_agreement_witness :
    (handleUnexpectedChar 'x' 3 "ab\ncd").line = some 2 ∧
    calculateKatexErrorLine "ab\ncd" 3 1 = 2 := by
  have h := offset_to_line_agreement "ab\ncd" 'x' 3 (by decide)
  refine ⟨?_, ?_⟩
  · rw [h.1]; decide
  · rw [h.2.1 1]; decide

/-! ## Claim C4: HTML extraction order -/

/-- The scan `findFromAux` never returns an index below its starting position. -/
theorem findFromAux_ge {α : Type} (f : Nat → Option α) :
    ∀ fuel i j a, findFromAux f fuel i = some (j, a) → i ≤ j := by
  intro fuel
  induction fuel with
  | zero =>
    intro i j a h
    simp [findFromAux] at h
  | succ n ih =>
    intro i j a h
    simp only [findFromAux] at h
    cases hf : f i with
    | some b =>
      rw [hf] at h
      simp only [Option.some.injEq, Prod.mk.injEq] at h
      omega
    | none =>
      rw [hf] at h
      have := ih (i + 1) j a h
      omega

/-- Every match produced by `tagMatchesFrom` starts at or after the
current scan position. -/
theorem tagMatchesFrom_start_ge (tag kw cs : List Char) :
    ∀ fuel i, ∀ x ∈ tagMatchesFrom tag kw cs fuel i, i ≤ x.1 := by
  intro fuel
  induction fuel with
  | zero =>
    intro i x hx
    simp [tagMatchesFrom] at hx
  | succ n ih =>
    intro i x hx
    simp only [tagMatchesFrom] at hx
    cases hf : findFromAux (tagMatchAt tag kw cs) (cs.length + 1 - i) i with
    | none =>
      rw [hf] at hx
      simp at hx
    | some je =>
      obtain ⟨j, e, cap⟩ := je
      rw [hf] at hx
      simp only [List.mem_cons] at hx
      rcases hx with rfl | hx
      · exact findFromAux_ge _ _ _ _ _ hf
      · have h1 := ih (max e (j + 1)) x hx
        have h2 := findFromAux_ge _ _ _ _ _ hf
        have h3 := Nat.le_max_right e (j + 1)
        omega

/-- Within one pattern, the match start positions strictly increase, i.e.
the matches come in document order. -/
theorem tagMatchesFrom_pairwise (tag kw cs : List Char) :
    ∀ fuel i, List.Pairwise (fun a b => a.1 < b.1)
      (tagMatchesFrom tag kw cs fuel i) := by
  intro fuel
  induction fuel with
  | zero =>
    intro i
    simp [tagMatchesFrom]
  | succ n ih =>
    intro i
    simp only [tagMatchesFrom]
    cases hf : findFromAux (tagMatchAt tag kw cs) (cs.length + 1 - i) i with
    | none => simp
    | some je =>
      obtain ⟨j, e, cap⟩ := je
      refine List.Pairwise.cons ?_ (ih _)
      intro y hy
      have h1 := tagMatchesFrom_start_ge tag kw cs n (max e (j + 1)) y hy
      have h2 := Nat.le_max_right e (j + 1)
      simp only []
      omega

/-- Newline counts over prefixes are monotone in the prefix length. -/
theorem countNl_take_mono (cs : List Char) {j k : Nat} (h : j ≤ k) :
    countNl (cs.take j) ≤ countNl (cs.take k) := by
  have hpre : cs.take j = (cs.take k).take j := by
    rw [List.take_take, Nat.min_eq_left h]
  rw [hpre]
  have happ : countNl ((cs.take k).take j) + countNl ((cs.take k).drop j) =
      countNl (cs.take k) := by
    rw [countNl, countNl, countNl, ← List.length_append, ← List.filter_append,
      List.take_append_drop]
  omega

/-- C4 (counterexample): one html token in which a div-carrier (line
offset 0) precedes a pre-carrier (line offset 1) in the document; the
extractor nevertheless emits the pre fragment first, because patterns are
scanned pattern-by-pattern, so the fragments are not in document order. -/
theorem html_extraction_counterexample :
    extractMermaidFromHtml
      "<div class=\x22mermaid\x22>A</div>\n<pre class=\x22mermaid\x22>B</pre>" 10 =
      [⟨"B", 11⟩, ⟨"A", 10⟩] := by
  decide

/-- C4 (amended): fragments extracted from one html token are grouped by
carrier pattern in the fixed pattern order (`pre`, `div`, `code`); within
each pattern group the fragments do appear in document order (match
positions strictly increase, hence start lines are nondecreasing).
Carriers of different tag shapes inside one token may therefore be emitted
out of document order. -/
theorem html_extraction_order (html : String) (s : Nat) :
    extractMermaidFromHtml html s =
      extractFromHtmlPattern "pre".data "mermaid".data html.data s ++
      extractFromHtmlPattern "div".data "mermaid".data html.data s ++
      extractFromHtmlPattern "code".data "language-mermaid".data html.data s ∧
    ∀ tag kw, List.Pairwise (· ≤ ·)
      ((extractFromHtmlPattern tag kw html.data s).map CodeBlock.startLine) := by
  constructor
  · simp [extractMermaidFromHtml, HTML_MERMAID_PATTERNS]
  · intro tag kw
    have hp := tagMatchesFrom_pairwise tag kw html.data (html.data.length + 1) 0
    simp only [extractFromHtmlPattern, tagMatches, List.map_map]
    refine List.Pairwise.map _ ?_ hp
    intro a b hab
    simp only [Function.comp]
    exact Nat.add_le_add_left (countNl_take_mono _ (by omega)) s

end MermaidRule
